import Mathlib

/-!
Shallow embedding of the agri-trace backend (src/index.js): the Express
handlers (/local-pickup, /consumer-data/:batchId, /aggregateAndAnchor,
/get-placename, /update-location), the averaging helper `avg`, and the
SHA-256 digest taken over the JSON serialization of the aggregate.
JavaScript numbers are modelled as rationals (ℚ) together with an explicit
NaN/Infinity carrier for the division-by-zero cases; external effects
(the Firebase store fetch, the geocoder response, the ledger call, the
clock) are passed in as explicit arguments, and the outbound ledger call
is returned as data so that "no ledger call happens" is provable.
-/

/-- A JavaScript number as produced by the arithmetic in this program:
either an ordinary (finite) value, modelled as a rational, or one of the
special values NaN / Infinity / -Infinity that division by zero yields. -/
inductive JsNum where
  | nan
  | inf
  | negInf
  | num (q : ℚ)
deriving DecidableEq

/-- Rational addition written in the `mkRat` normal form so that it
evaluates by kernel reduction (the library's `Rat.add` is irreducible);
`addQ_eq` below proves it is exactly `+` on ℚ. -/
def addQ (a b : ℚ) : ℚ :=
  mkRat (a.num * b.den + b.num * a.den) (a.den * b.den)

/-- Rational division written in the `mkRat` normal form so that it
evaluates by kernel reduction; `divQ_eq` below proves it is exactly `/`
on ℚ for a nonzero divisor. -/
def divQ (a b : ℚ) : ℚ :=
  if 0 ≤ b.num then mkRat (a.num * b.den) (a.den * b.num.natAbs)
  else mkRat (-(a.num * b.den)) (a.den * b.num.natAbs)

/-- `arr.reduce((a, b) => a + b, 0)` — left fold of addition starting at 0. -/
def sumQ (l : List ℚ) : ℚ :=
  l.foldl addQ 0

/-- JavaScript division `a / n` for a finite numerator: `0 / 0` is NaN,
`a / 0` for nonzero `a` is a signed infinity, otherwise exact division. -/
def jsDivQ (a : ℚ) (n : ℚ) : JsNum :=
  if n = 0 then
    if a = 0 then JsNum.nan
    else if 0 < a then JsNum.inf
    else JsNum.negInf
  else JsNum.num (divQ a n)

/-- `avg(arr)` from src/index.js: `arr.reduce((a,b) => a + b, 0) / arr.length`.
On the empty list this is `0 / 0`, i.e. NaN. -/
def jsAvg (l : List ℚ) : JsNum :=
  jsDivQ (sumQ l) (l.length : ℚ)

/-- The count of hundredths that `x.toFixed(2)` rounds |x| to: per the
ECMAScript specification the sign is stripped first and ties pick the
larger scaled integer, i.e. round-half-up on the absolute value. Written
over the numerator and denominator directly: this is
`⌊|q| * 100 + 1/2⌋ = (|num| * 200 + den) / (2 * den)` as Nat division. -/
def round2 (q : ℚ) : Nat :=
  (q.num.natAbs * 200 + q.den) / (2 * q.den)

/-- The finite numeric value that the string `x.toFixed(2)` denotes
(the 2-decimal rounding of `x`, as a rational). -/
def toFixed2val (q : ℚ) : ℚ :=
  (if q < 0 then -1 else 1) * ((round2 q : ℚ) / 100)

/-- Left-pad a hundredths remainder to exactly two digits. -/
def pad2 (n : Nat) : String :=
  if n < 10 then "0" ++ toString n else toString n

/-- `x.toFixed(2)` on a finite value: sign of `x`, then the rounded
hundredths rendered with exactly two digits after the point. -/
def toFixed2q (q : ℚ) : String :=
  let m : Nat := round2 q
  (if q < 0 then "-" else "") ++ toString (m / 100) ++ "." ++ pad2 (m % 100)

/-- `x.toFixed(2)` on a JavaScript number: special values render as their
names, exactly as in JavaScript (`(0/0).toFixed(2) === "NaN"`). -/
def jsToFixed2 : JsNum → String
  | JsNum.nan => "NaN"
  | JsNum.inf => "Infinity"
  | JsNum.negInf => "-Infinity"
  | JsNum.num q => toFixed2q q

/-- Decimal digits of the fractional part `r / den`, most significant first;
the fuel bounds the length (the values this program serializes are short
terminating decimals, for which the rendering is exact). -/
def fracDigitsGo : Nat → Nat → Nat → String
  | 0, _, _ => ""
  | _, 0, _ => ""
  | fuel + 1, r, den =>
    let r10 := r * 10
    String.singleton (Char.ofNat (48 + r10 / den)) ++ fracDigitsGo fuel (r10 % den) den

/-- How `JSON.stringify` renders one of this program's finite numbers:
integer values without a point, terminating decimals digit by digit. -/
def renderQ (q : ℚ) : String :=
  let sgn := if q < 0 then "-" else ""
  let a : ℚ := |q|
  let ip : Nat := a.num.toNat / a.den
  let r : Nat := a.num.toNat % a.den
  if r = 0 then sgn ++ toString ip
  else sgn ++ toString ip ++ "." ++ fracDigitsGo 20 r a.den

/-- JSON string escaping for the quote and backslash characters. -/
def jsonEscape (s : String) : String :=
  String.mk (s.data.foldr
    (fun c acc =>
      if c = '"' then '\\' :: '"' :: acc
      else if c = '\\' then '\\' :: '\\' :: acc
      else c :: acc) [])

/-! ### SHA-256 (CryptoJS.SHA256 over the UTF-8 bytes of the JSON string)

Executable SHA-256 over byte lists, words modelled as `Nat` reduced
`% 2^32`, output as the lowercase hex string `CryptoJS`'s `toString()`
produces. -/

/-- Rotate a 32-bit word right by `n` bits. -/
def rotr (n x : Nat) : Nat :=
  ((x >>> n) ||| (x <<< (32 - n))) &&& 0xffffffff

/-- SHA-256 small sigma 0: rotr 7 xor rotr 18 xor shr 3. -/
def smallSigma0 (x : Nat) : Nat :=
  (rotr 7 x) ^^^ (rotr 18 x) ^^^ (x >>> 3)

/-- SHA-256 small sigma 1: rotr 17 xor rotr 19 xor shr 10. -/
def smallSigma1 (x : Nat) : Nat :=
  (rotr 17 x) ^^^ (rotr 19 x) ^^^ (x >>> 10)

/-- SHA-256 big sigma 0: rotr 2 xor rotr 13 xor rotr 22. -/
def bigSigma0 (x : Nat) : Nat :=
  (rotr 2 x) ^^^ (rotr 13 x) ^^^ (rotr 22 x)

/-- SHA-256 big sigma 1: rotr 6 xor rotr 11 xor rotr 25. -/
def bigSigma1 (x : Nat) : Nat :=
  (rotr 6 x) ^^^ (rotr 11 x) ^^^ (rotr 25 x)

/-- SHA-256 choice function (the complement is xor with the 32-bit mask). -/
def chF (x y z : Nat) : Nat :=
  (x &&& y) ^^^ ((x ^^^ 0xffffffff) &&& z)

/-- SHA-256 majority function. -/
def majF (x y z : Nat) : Nat :=
  (x &&& y) ^^^ (x &&& z) ^^^ (y &&& z)

/-- The 64 SHA-256 round constants. -/
def SHA256K : List Nat :=
  [1116352408, 1899447441, 3049323471, 3921009573, 961987163, 1508970993,
   2453635748, 2870763221, 3624381080, 310598401, 607225278, 1426881987,
   1925078388, 2162078206, 2614888103, 3248222580, 3835390401, 4022224774,
   264347078, 604807628, 770255983, 1249150122, 1555081692, 1996064986,
   2554220882, 2821834349, 2952996808, 3210313671, 3336571891, 3584528711,
   113926993, 338241895, 666307205, 773529912, 1294757372, 1396182291,
   1695183700, 1986661051, 2177026350, 2456956037, 2730485921, 2820302411,
   3259730800, 3345764771, 3516065817, 3600352804, 4094571909, 275423344,
   430227734, 506948616, 659060556, 883997877, 958139571, 1322822218,
   1537002063, 1747873779, 1955562222, 2024104815, 2227730452, 2361852424,
   2428436474, 2756734187, 3204031479, 3329325298]

/-- The initial SHA-256 hash state. -/
def SHA256H0 : List Nat :=
  [1779033703, 3144134277, 1013904242, 2773480762,
   1359893119, 2600822924, 528734635, 1541459225]

/-- Big-endian 8-byte encoding of a natural number. -/
def be64 (n : Nat) : List Nat :=
  [(n >>> 56) &&& 255, (n >>> 48) &&& 255, (n >>> 40) &&& 255, (n >>> 32) &&& 255,
   (n >>> 24) &&& 255, (n >>> 16) &&& 255, (n >>> 8) &&& 255, n &&& 255]

/-- SHA-256 padding: append 0x80, zero bytes to 56 mod 64, then the
64-bit big-endian bit length. -/
def sha256pad (msg : List Nat) : List Nat :=
  let L := msg.length
  let z := (119 - (L % 64)) % 64
  msg ++ [0x80] ++ List.replicate z 0 ++ be64 (8 * L)

/-- Pack bytes into 32-bit big-endian words, 4 bytes per word. -/
def wordsOfBytes : List Nat → List Nat
  | b0 :: b1 :: b2 :: b3 :: rest =>
    (b0 <<< 24 ||| b1 <<< 16 ||| b2 <<< 8 ||| b3) :: wordsOfBytes rest
  | _ => []

/-- Split a word list into 16-word blocks (fuel-bounded recursion). -/
def blocks16Go : Nat → List Nat → List (List Nat)
  | 0, _ => []
  | _, [] => []
  | fuel + 1, l => l.take 16 :: blocks16Go fuel (l.drop 16)

/-- Extend a 16-word message block to the 64-word schedule, appending
`fuel` further words by the SHA-256 recurrence. -/
def extendW (w : List Nat) : Nat → List Nat
  | 0 => w
  | fuel + 1 =>
    let i := w.length
    let nw := (w.getD (i - 16) 0 + smallSigma0 (w.getD (i - 15) 0) +
               w.getD (i - 7) 0 + smallSigma1 (w.getD (i - 2) 0)) % 4294967296
    extendW (w ++ [nw]) fuel

/-- One SHA-256 compression round on the 8-word working state, consuming
one `k + w` summand. -/
def compressRound (st : List Nat) (kw : Nat) : List Nat :=
  match st with
  | [a, b, c, d, e, f, g, h] =>
    let t1 := (h + bigSigma1 e + chF e f g + kw) % 4294967296
    let t2 := (bigSigma0 a + majF a b c) % 4294967296
    [(t1 + t2) % 4294967296, a, b, c, (d + t1) % 4294967296, e, f, g]
  | other => other

/-- Process one 16-word block: run the 64 rounds over the extended
schedule and add the result back into the chaining state. -/
def sha256Block (h : List Nat) (block : List Nat) : List Nat :=
  let w := extendW block 48
  let kw := List.zipWith (fun k wi => (k + wi) % 4294967296) SHA256K w
  let st := kw.foldl compressRound h
  List.zipWith (fun x y => (x + y) % 4294967296) h st

/-- SHA-256 of a byte list, as the eight 32-bit words of the digest. -/
def sha256Words (msg : List Nat) : List Nat :=
  let padded := sha256pad msg
  let ws := wordsOfBytes padded
  (blocks16Go ws.length ws).foldl sha256Block SHA256H0

/-- Lowercase hex digit. -/
def hexDigit (n : Nat) : Char :=
  if n < 10 then Char.ofNat (48 + n) else Char.ofNat (87 + n)

/-- Two lowercase hex digits of a byte. -/
def byteHex (b : Nat) : String :=
  String.mk [hexDigit (b / 16), hexDigit (b % 16)]

/-- Eight lowercase hex digits of a 32-bit word, big-endian. -/
def wordHex (w : Nat) : String :=
  byteHex ((w >>> 24) &&& 255) ++ byteHex ((w >>> 16) &&& 255) ++
  byteHex ((w >>> 8) &&& 255) ++ byteHex (w &&& 255)

/-- The bytes of an ASCII string (all strings this program hashes are
ASCII, where UTF-8 bytes and code points coincide). -/
def strBytes (s : String) : List Nat :=
  s.data.map Char.toNat

/-- `CryptoJS.SHA256(s).toString()`: the lowercase hex digest string. -/
def sha256hex (s : String) : String :=
  (sha256Words (strBytes s)).foldl (fun acc w => acc ++ wordHex w) ""

/-! ### Data model -/

/-- One raw sensor record under `/vehicle_data/BATCH_<id>` in the store:
the fields the handlers read, each possibly absent (`undefined`). -/
structure SensorReading where
  temperature_C : Option ℚ
  humidity_pct : Option ℚ
  local_timestamp_ms : Option Int
deriving DecidableEq

/-- The aggregate object built in /aggregateAndAnchor (field order is the
JavaScript object insertion order, which `JSON.stringify` preserves). -/
structure SummaryAgg where
  batchId : String
  avgTemp : String
  avgHumidity : String
  minTemp : ℚ
  maxTemp : ℚ
  sampleCount : Nat
  periodEnd : Int
deriving DecidableEq

/-- The advisory record stored in the in-memory `activeTransports` map by
POST /local-pickup. -/
structure PickupEntry where
  transporter : String
  pickupLocation : Option String
  pickupTime : Option String
  status : String
deriving DecidableEq

/-- The `address` object of the reverse-geocoder response, restricted to
the fields /get-placename reads; each may be absent. -/
structure GeoAddress where
  amenity : Option String
  shop : Option String
  road : Option String
  city : Option String
deriving DecidableEq

/-! ### POST /aggregateAndAnchor -/

/-- One iteration of the /aggregateAndAnchor parse loop (src/index.js
lines 116–126): when the record has both `temperature_C` and
`humidity_pct` it is pushed onto both sequences and the running largest
`local_timestamp_ms` is updated; otherwise the record is skipped
entirely. -/
def collectStep (acc : List ℚ × List ℚ × Int) (r : SensorReading) :
    List ℚ × List ℚ × Int :=
  match r.temperature_C, r.humidity_pct with
  | some t, some h =>
    (acc.1 ++ [t], acc.2.1 ++ [h],
      match r.local_timestamp_ms with
      | some ts => if acc.2.2 < ts then ts else acc.2.2
      | none => acc.2.2)
  | _, _ => acc

/-- The parse loop of /aggregateAndAnchor (src/index.js lines 111–126):
one pass over the store records, starting from empty sequences and
`lastTimestamp = 0`. Returns (temps, hums, lastTimestamp). -/
def collectReadings (rs : List SensorReading) : List ℚ × List ℚ × Int :=
  rs.foldl collectStep ([], [], 0)

/-- `temperature_C` of a record when the record has both sensor fields
(the only case in which the anchor parse loop keeps it). -/
def bothTemp (r : SensorReading) : Option ℚ :=
  match r.temperature_C, r.humidity_pct with
  | some t, some _ => some t
  | _, _ => none

/-- `humidity_pct` of a record when the record has both sensor fields
(the only case in which the anchor parse loop keeps it). -/
def bothHum (r : SensorReading) : Option ℚ :=
  match r.temperature_C, r.humidity_pct with
  | some _, some h => some h
  | _, _ => none

/-- `Math.min(...temps)` on a non-empty list, as the fold of binary min. -/
def listMin (t : ℚ) (ts : List ℚ) : ℚ :=
  ts.foldl min t

/-- `Math.max(...temps)` on a non-empty list, as the fold of binary max. -/
def listMax (t : ℚ) (ts : List ℚ) : ℚ :=
  ts.foldl max t

/-- `JSON.stringify(aggregate)`: the aggregate's fields in insertion
order; string fields quoted and escaped, numeric fields rendered as
JavaScript numbers. -/
def stringifyAggregate (a : SummaryAgg) : String :=
  "\x7b\"batchId\":\"" ++ jsonEscape a.batchId ++
  "\",\"avgTemp\":\"" ++ jsonEscape a.avgTemp ++
  "\",\"avgHumidity\":\"" ++ jsonEscape a.avgHumidity ++
  "\",\"minTemp\":" ++ renderQ a.minTemp ++
  ",\"maxTemp\":" ++ renderQ a.maxTemp ++
  ",\"sampleCount\":" ++ toString a.sampleCount ++
  ",\"periodEnd\":" ++ toString a.periodEnd ++ "\x7d"

/-- Outcome of one POST /aggregateAndAnchor request. `success` carries the
hex digest that is sent to the ledger and the aggregate summary; the error
constructors carry the JSON error message of the response body. The
ledger-failure 500 path (the contract call rejecting) is outside the
claims and is not modelled: `success` is the outcome in which the contract
call is issued. -/
inductive AnchorOutcome where
  | badRequest (msg : String)
  | noData (msg : String)
  | noValidFields (msg : String)
  | success (hash : String) (agg : SummaryAgg)
deriving DecidableEq

/-- The /aggregateAndAnchor handler as a function of its request field
`batchId`, the raw store fetch result (`none` models the store returning
no data, i.e. JSON `null`), and the current clock `now` (`Date.now()`).
Follows src/index.js lines 90–170: validate `batchId` (JavaScript
truthiness: absent or empty string fails), 404 on an empty fetch, parse,
404 when no record had both sensor fields, else build the aggregate,
hash its serialization and call the ledger. -/
def aggregateAndAnchor (batchId : Option String)
    (storeData : Option (List SensorReading)) (now : Int) : AnchorOutcome :=
  match batchId with
  | none => AnchorOutcome.badRequest "batchId is required (e.g., 8)"
  | some bid =>
    if bid = "" then AnchorOutcome.badRequest "batchId is required (e.g., 8)"
    else
      match storeData with
      | none => AnchorOutcome.noData ("No data found for BATCH_" ++ bid)
      | some rs =>
        let c := collectReadings rs
        match c.1 with
        | [] => AnchorOutcome.noValidFields
            "No valid temperature/humidity fields found in the records"
        | t :: ts =>
          let agg : SummaryAgg :=
            { batchId := bid
              avgTemp := jsToFixed2 (jsAvg (t :: ts))
              avgHumidity := jsToFixed2 (jsAvg c.2.1)
              minTemp := listMin t ts
              maxTemp := listMax t ts
              sampleCount := (t :: ts).length
              periodEnd := if c.2.2 = 0 then now else c.2.2 }
          AnchorOutcome.success (sha256hex (stringifyAggregate agg)) agg

/-- HTTP status of an /aggregateAndAnchor outcome. -/
def anchorStatus : AnchorOutcome → Nat
  | AnchorOutcome.badRequest _ => 400
  | AnchorOutcome.noData _ => 404
  | AnchorOutcome.noValidFields _ => 404
  | AnchorOutcome.success _ _ => 200

/-- The ledger contract calls `contract.storeSensorHash(batchId, hash,
aggregate.periodEnd)` an outcome performs, as (batchId, hash, periodEnd)
triples: exactly one on success, none on any error path. -/
def ledgerCallsOf : AnchorOutcome → List (String × String × Int)
  | AnchorOutcome.success h agg => [(agg.batchId, h, agg.periodEnd)]
  | _ => []

/-- The SHA-256 digest of an outcome, when one was produced. -/
def hashOf : AnchorOutcome → Option String
  | AnchorOutcome.success h _ => some h
  | _ => none

/-- The aggregate summary of an outcome, when one was produced. -/
def summaryOf : AnchorOutcome → Option SummaryAgg
  | AnchorOutcome.success _ agg => some agg
  | _ => none

/-- The JSON error message of an outcome, when the outcome is an error. -/
def errorBodyOf : AnchorOutcome → Option String
  | AnchorOutcome.badRequest m => some m
  | AnchorOutcome.noData m => some m
  | AnchorOutcome.noValidFields m => some m
  | AnchorOutcome.success _ _ => none

/-! ### GET /consumer-data/:batchId -/

/-- One iteration of the /consumer-data loop (src/index.js lines 71–74):
two independent membership tests, pushing `temperature_C` when present
and `humidity_pct` when present. -/
def consumerStep (acc : List ℚ × List ℚ) (r : SensorReading) : List ℚ × List ℚ :=
  let acc1 :=
    match r.temperature_C with
    | some t => (acc.1 ++ [t], acc.2)
    | none => acc
  match r.humidity_pct with
  | some h => (acc1.1, acc1.2 ++ [h])
  | none => acc1

/-- The consumer-data partition (src/index.js lines 69–74): one pass over
the records, each field collected independently of the other. -/
def consumerPartition (rs : List SensorReading) : List ℚ × List ℚ :=
  rs.foldl consumerStep ([], [])

/-- Outcome of one GET /consumer-data/:batchId request. -/
inductive ConsumerOutcome where
  | notFound (msg : String)
  | ok (avgTemp : String) (avgHumidity : String)
deriving DecidableEq

/-- The /consumer-data handler as a function of the raw store fetch result
(src/index.js lines 55–86): 404 when the fetch returned no data, otherwise
200 with the two `toFixed(2)` averages — the division is by the length of
each partitioned sequence with no emptiness guard. -/
def consumerData (storeData : Option (List SensorReading)) : ConsumerOutcome :=
  match storeData with
  | none => ConsumerOutcome.notFound "No sensor data found for this batch"
  | some rs =>
    let p := consumerPartition rs
    ConsumerOutcome.ok (jsToFixed2 (jsAvg p.1)) (jsToFixed2 (jsAvg p.2))

/-- HTTP status of a /consumer-data outcome. -/
def consumerStatus : ConsumerOutcome → Nat
  | ConsumerOutcome.notFound _ => 404
  | ConsumerOutcome.ok _ _ => 200

/-! ### POST /local-pickup -/

/-- The /local-pickup handler (src/index.js lines 36–53) as a function of
the request fields and the current `activeTransports` map: 400 when
`batchId` or `transporter` is falsy (absent or the empty string), else
overwrite the entry for `batchId` with status "In Transit" and respond
200. Returns (status, updated map). -/
def localPickup (batchId transporter location time : Option String)
    (m : String → Option PickupEntry) :
    Nat × (String → Option PickupEntry) :=
  match batchId, transporter with
  | some b, some t =>
    if b = "" ∨ t = "" then (400, m)
    else
      (200, fun k =>
        if k = b then
          some { transporter := t, pickupLocation := location,
                 pickupTime := time, status := "In Transit" }
        else m k)
  | _, _ => (400, m)

/-! ### GET /get-placename -/

/-- JavaScript `a || b` on an optional string: a present non-empty string
is taken, an absent or empty (falsy) one falls through. -/
def jsOrS (v : Option String) (rest : String) : String :=
  match v with
  | some s => if s = "" then rest else s
  | none => rest

/-- The display-name extraction of /get-placename (src/index.js line 184):
`address.amenity || address.shop || address.road || address.city ||
"Unknown Location"`. -/
def displayNameOf (a : GeoAddress) : String :=
  jsOrS a.amenity (jsOrS a.shop (jsOrS a.road (jsOrS a.city "Unknown Location")))

/-- The /get-placename handler as a function of the geocoder fetch
(src/index.js lines 174–190). `Except.error` models the axios call
rejecting (network error, timeout, non-2xx); `Except.ok none` models a
2xx response whose body has no `address` object, in which case reading
`address.amenity` throws and the same catch block runs. Both give
status 500 with body name "Location Selected"; a present address gives
status 200 with the extracted display name. Returns (status, name). -/
def getPlacename (fetched : Except String (Option GeoAddress)) : Nat × String :=
  match fetched with
  | Except.error _ => (500, "Location Selected")
  | Except.ok none => (500, "Location Selected")
  | Except.ok (some a) => (200, displayNameOf a)

/-! ### POST /update-location -/

/-- The /update-location handler (src/index.js lines 193–226) as a
function of the request fields, the configured store URL, and the result
of the store write. The request fields are never validated: they are
interpolated into the URL and body (absent ones as `undefined`/NaN), so
control flow depends only on the environment check and the store call.
Returns (status, error message if any). -/
def updateLocation (batchId lat lng : Option String) (envUrl : Option String)
    (storeResult : Except String Unit) : Nat × Option String :=
  match envUrl with
  | none => (500, some "FIREBASE_URL is missing in your .env file!")
  | some _ =>
    match storeResult with
    | Except.error e => (500, some e)
    | Except.ok _ => (200, none)

/-! ### Spec-modelled definitions -/

/-- Modelled from the spec: the travel-duration computation of the
anchoring variant that is absent from src/ (src/index.js contains only
the digest-anchoring variant, which computes no duration): duration is
`max(0, arrivalTimestamp - pickupTimestamp)` when a pickup timestamp is
known and positive, otherwise 0. -/
def durationSecondsSpec (pickupTimestamp arrivalTimestamp : Int) : Int :=
  if 0 < pickupTimestamp then max 0 (arrivalTimestamp - pickupTimestamp) else 0

/-! ### Helper lemmas -/

/-- `addQ` is addition on ℚ. -/
theorem addQ_eq (a b : ℚ) : addQ a b = a + b := by
  have hda : ((a.den : ℚ)) ≠ 0 := by exact_mod_cast a.den_ne_zero
  have hdb : ((b.den : ℚ)) ≠ 0 := by exact_mod_cast b.den_ne_zero
  rw [addQ, Rat.mkRat_eq_divInt, Rat.divInt_eq_div]
  push_cast
  conv_rhs => rw [← Rat.num_div_den a, ← Rat.num_div_den b]
  field_simp

/-- `divQ` is division on ℚ, for a nonzero divisor. -/
theorem divQ_eq (a b : ℚ) (hb : b ≠ 0) : divQ a b = a / b := by
  have hbn : b.num ≠ 0 := Rat.num_ne_zero.mpr hb
  have hda : ((a.den : ℚ)) ≠ 0 := by exact_mod_cast a.den_ne_zero
  have hdb : ((b.den : ℚ)) ≠ 0 := by exact_mod_cast b.den_ne_zero
  have hbnq : ((b.num : ℚ)) ≠ 0 := by exact_mod_cast hbn
  by_cases h : 0 ≤ b.num
  · rw [divQ, if_pos h, Rat.mkRat_eq_divInt, Rat.divInt_eq_div]
    push_cast
    rw [abs_of_nonneg (show (0 : ℚ) ≤ (b.num : ℚ) by exact_mod_cast h)]
    conv_rhs => rw [← Rat.num_div_den a, ← Rat.num_div_den b]
    field_simp
  · rw [divQ, if_neg h, Rat.mkRat_eq_divInt, Rat.divInt_eq_div]
    push_cast
    rw [abs_of_neg (show (b.num : ℚ) < 0 by exact_mod_cast lt_of_not_ge h)]
    conv_rhs => rw [← Rat.num_div_den a, ← Rat.num_div_den b]
    field_simp

/-- Folding `addQ` from `a` is `a` plus folding from `0`. -/
theorem foldl_add_shift (l : List ℚ) : ∀ a : ℚ, l.foldl addQ a = a + sumQ l := by
  induction l with
  | nil => intro a; simp [sumQ]
  | cons x l ih =>
    intro a
    show l.foldl addQ (addQ a x) = a + sumQ (x :: l)
    rw [ih (addQ a x)]
    show addQ a x + sumQ l = a + (x :: l).foldl addQ 0
    show addQ a x + sumQ l = a + l.foldl addQ (addQ 0 x)
    rw [ih (addQ 0 x), addQ_eq, addQ_eq, zero_add, add_assoc]

/-- `sumQ` over a cons. -/
theorem sumQ_cons (x : ℚ) (l : List ℚ) : sumQ (x :: l) = x + sumQ l := by
  show l.foldl addQ (addQ 0 x) = x + sumQ l
  rw [foldl_add_shift l (addQ 0 x), addQ_eq, zero_add]

/-- The fold of binary min is below its seed. -/
theorem listMin_le_seed (ts : List ℚ) : ∀ t : ℚ, listMin t ts ≤ t := by
  induction ts with
  | nil => intro t; exact le_refl t
  | cons x ts ih =>
    intro t
    calc listMin t (x :: ts) = listMin (min t x) ts := rfl
      _ ≤ min t x := ih (min t x)
      _ ≤ t := min_le_left t x

/-- The fold of binary min is below every list element. -/
theorem listMin_le_mem (ts : List ℚ) : ∀ t x : ℚ, x ∈ ts → listMin t ts ≤ x := by
  induction ts with
  | nil => intro t x hx; cases hx
  | cons y ts ih =>
    intro t x hx
    rcases List.mem_cons.mp hx with h | h
    · subst h
      calc listMin t (x :: ts) = listMin (min t x) ts := rfl
        _ ≤ min t x := listMin_le_seed ts (min t x)
        _ ≤ x := min_le_right t x
    · exact ih (min t y) x h

/-- The fold of binary max is above its seed. -/
theorem seed_le_listMax (ts : List ℚ) : ∀ t : ℚ, t ≤ listMax t ts := by
  induction ts with
  | nil => intro t; exact le_refl t
  | cons x ts ih =>
    intro t
    calc t ≤ max t x := le_max_left t x
      _ ≤ listMax (max t x) ts := ih (max t x)
      _ = listMax t (x :: ts) := rfl

/-- The fold of binary max is above every list element. -/
theorem mem_le_listMax (ts : List ℚ) : ∀ t x : ℚ, x ∈ ts → x ≤ listMax t ts := by
  induction ts with
  | nil => intro t x hx; cases hx
  | cons y ts ih =>
    intro t x hx
    rcases List.mem_cons.mp hx with h | h
    · subst h
      calc x ≤ max t x := le_max_right t x
        _ ≤ listMax (max t x) ts := seed_le_listMax ts (max t x)
        _ = listMax t (x :: ts) := rfl
    · exact ih (max t y) x h

/-- A uniform lower bound on the elements bounds the sum from below. -/
theorem mul_length_le_sumQ (c : ℚ) (l : List ℚ) (h : ∀ x ∈ l, c ≤ x) :
    c * (l.length : ℚ) ≤ sumQ l := by
  induction l with
  | nil => simp [sumQ]
  | cons x l ih =>
    have hx : c ≤ x := h x (List.mem_cons_self x l)
    have hl : c * (l.length : ℚ) ≤ sumQ l :=
      ih (fun y hy => h y (List.mem_cons_of_mem x hy))
    rw [sumQ_cons, List.length_cons]
    push_cast
    have hexp : c * ((l.length : ℚ) + 1) = c * (l.length : ℚ) + c := by ring
    rw [hexp]
    linarith

/-- A uniform upper bound on the elements bounds the sum from above. -/
theorem sumQ_le_mul_length (c : ℚ) (l : List ℚ) (h : ∀ x ∈ l, x ≤ c) :
    sumQ l ≤ c * (l.length : ℚ) := by
  induction l with
  | nil => simp [sumQ]
  | cons x l ih =>
    have hx : x ≤ c := h x (List.mem_cons_self x l)
    have hl : sumQ l ≤ c * (l.length : ℚ) :=
      ih (fun y hy => h y (List.mem_cons_of_mem x hy))
    rw [sumQ_cons, List.length_cons]
    push_cast
    have hexp : c * ((l.length : ℚ) + 1) = c * (l.length : ℚ) + c := by ring
    rw [hexp]
    linarith

/-- The length of a non-empty list is positive in ℚ. -/
theorem length_cons_posQ (t : ℚ) (ts : List ℚ) : (0 : ℚ) < (((t :: ts).length : ℕ) : ℚ) := by
  exact_mod_cast Nat.succ_pos ts.length

/-- On a non-empty list, `avg` lands in the finite branch with the exact
rational mean. -/
theorem jsAvg_cons (t : ℚ) (ts : List ℚ) :
    jsAvg (t :: ts) = JsNum.num (sumQ (t :: ts) / (((t :: ts).length : ℕ) : ℚ)) := by
  have hn : (((t :: ts).length : ℕ) : ℚ) ≠ 0 := ne_of_gt (length_cons_posQ t ts)
  unfold jsAvg jsDivQ
  rw [if_neg hn, divQ_eq _ _ hn]

/-- The consumer fold from any accumulator appends the two independent
field projections. -/
theorem foldl_consumerStep (rs : List SensorReading) :
    ∀ a b : List ℚ,
      rs.foldl consumerStep (a, b)
        = (a ++ rs.filterMap SensorReading.temperature_C,
           b ++ rs.filterMap SensorReading.humidity_pct) := by
  induction rs with
  | nil => intro a b; simp
  | cons r rs ih =>
    intro a b
    rcases ht : r.temperature_C with _ | t <;> rcases hh : r.humidity_pct with _ | h <;>
      simp [consumerStep, ht, hh, List.filterMap_cons, ih, List.append_assoc]

/-- The anchor fold from any accumulator appends the both-fields-present
projections to the first two components. -/
theorem foldl_collectStep (rs : List SensorReading) :
    ∀ acc : List ℚ × List ℚ × Int,
      (rs.foldl collectStep acc).1 = acc.1 ++ rs.filterMap bothTemp ∧
      (rs.foldl collectStep acc).2.1 = acc.2.1 ++ rs.filterMap bothHum := by
  induction rs with
  | nil => intro acc; simp
  | cons r rs ih =>
    intro acc
    rcases ht : r.temperature_C with _ | t <;> rcases hh : r.humidity_pct with _ | h <;>
      simp [collectStep, bothTemp, bothHum, ht, hh, List.filterMap_cons, ih, List.append_assoc]

/-- A record with no temperature field is skipped entirely by the anchor
parse step. -/
theorem collectStep_noTemp (acc : List ℚ × List ℚ × Int) (r : SensorReading)
    (h : r.temperature_C = none) : collectStep acc r = acc := by
  simp [collectStep, h]

/-- When every record lacks a temperature field, the anchor fold is the
identity on the accumulator. -/
theorem foldl_collectStep_noTemp (rs : List SensorReading) :
    ∀ acc, (∀ r ∈ rs, r.temperature_C = none) → rs.foldl collectStep acc = acc := by
  induction rs with
  | nil => intro acc _; rfl
  | cons r rs ih =>
    intro acc hall
    rw [List.foldl_cons, collectStep_noTemp acc r (hall r (List.mem_cons_self r rs))]
    exact ih acc (fun x hx => hall x (List.mem_cons_of_mem r hx))

/-! ### Claim theorems -/

/-- Claim C2: for every POST /aggregateAndAnchor request (with a truthy
batchId) whose raw store fetch returns no data, the handler responds 404
with an error body and performs no ledger contract call. -/
theorem anchor_noData_404_no_ledger (bid : String) (now : Int) (hb : bid ≠ "") :
    anchorStatus (aggregateAndAnchor (some bid) none now) = 404 ∧
    errorBodyOf (aggregateAndAnchor (some bid) none now)
      = some ("No data found for BATCH_" ++ bid) ∧
    ledgerCallsOf (aggregateAndAnchor (some bid) none now) = [] := by
  simp [aggregateAndAnchor, hb, anchorStatus, errorBodyOf, ledgerCallsOf]

/-- Witness for C2 at batchId "8": the fetch returned no data, the
response is 404 with the error body, and the ledger call list is empty. -/
theorem anchor_noData_404_no_ledger_witness :
    anchorStatus (aggregateAndAnchor (some "8") none 0) = 404 ∧
    errorBodyOf (aggregateAndAnchor (some "8") none 0)
      = some ("No data found for BATCH_" ++ "8") ∧
    ledgerCallsOf (aggregateAndAnchor (some "8") none 0) = [] :=
  anchor_noData_404_no_ledger "8" 0 (by decide)

/-- Claim C3: on readings (20,55), (22,57), (24,50) the aggregation yields
min 20, average 22 (rendered "22.00"), max 24, average humidity 54
(rendered "54.00"), sample count 3; the travel duration for pickup 1000
and arrival 1180, which only the spec-modelled anchoring variant
computes, is 180. -/
theorem anchor_demo_scenario :
    summaryOf (aggregateAndAnchor (some "8")
        (some [⟨some 20, some 55, none⟩, ⟨some 22, some 57, none⟩, ⟨some 24, some 50, none⟩]) 99)
      = some { batchId := "8", avgTemp := "22.00", avgHumidity := "54.00",
               minTemp := 20, maxTemp := 24, sampleCount := 3, periodEnd := 99 } ∧
    durationSecondsSpec 1000 1180 = 180 := by
  constructor
  · decide
  · decide

/-- Counterexample to C4: when the geocoder fetch fails (for example a
timeout), /get-placename responds with status 500, not 200 — the body
still carries the fallback name "Location Selected". -/
theorem placename_error_is_500_cex :
    getPlacename (Except.error "timeout") = (500, "Location Selected") ∧
    (getPlacename (Except.error "timeout")).1 ≠ 200 := by
  constructor
  · rfl
  · decide

/-- Claim C4 as amended: on any geocoder fetch failure, and on a response
with no address object, /get-placename responds 500 with name
"Location Selected"; when the address object is present it responds 200
with the extracted (or "Unknown Location") name. -/
theorem placename_behavior :
    (∀ e : String, getPlacename (Except.error e) = (500, "Location Selected")) ∧
    getPlacename (Except.ok none) = (500, "Location Selected") ∧
    (∀ a : GeoAddress, (getPlacename (Except.ok (some a))).1 = 200) :=
  ⟨fun _ => rfl, rfl, fun _ => rfl⟩

/-- Counterexample to C8: a POST /update-location request with batchId,
lat and lng all missing is not rejected with 400 — the handler attempts
the store write and (here, with the write succeeding) responds 200. -/
theorem update_location_no_validation_cex :
    (updateLocation none none none (some "https://store") (Except.ok ())).1 = 200 ∧
    (updateLocation none none none (some "https://store") (Except.ok ())).1 ≠ 400 := by
  constructor
  · rfl
  · decide

/-- Claim C8 as amended: /aggregateAndAnchor without batchId and
/local-pickup without batchId or without transporter respond 400;
/update-location performs no field validation, so with all fields
missing its status is never 400 (200 on store success, 500 otherwise). -/
theorem missing_field_validation :
    (∀ store now, anchorStatus (aggregateAndAnchor none store now) = 400) ∧
    (∀ t loc time m, (localPickup none t loc time m).1 = 400) ∧
    (∀ b loc time m, (localPickup b none loc time m).1 = 400) ∧
    (∀ env store, (updateLocation none none none env store).1 ≠ 400) := by
  refine ⟨fun store now => rfl, fun t loc time m => ?_, fun b loc time m => ?_,
    fun env store => ?_⟩
  · cases t <;> rfl
  · cases b <;> rfl
  · cases env with
    | none => simp [updateLocation]
    | some u => cases store <;> simp [updateLocation]

/-- Claim C9: a /consumer-data fetch returning one record that has a
humidity but no temperature yields status 200 with avgTemp the string
"NaN" — the division by the temperature-sequence length is unguarded. -/
theorem consumer_nan_200 :
    consumerData (some [⟨none, some 50, none⟩]) = ConsumerOutcome.ok "NaN" "50.00" ∧
    consumerStatus (consumerData (some [⟨none, some 50, none⟩])) = 200 := by
  constructor
  · decide
  · decide

/-- Counterexample to C10: a request whose batchId is present but the
empty string (with a valid transporter) is rejected with 400 and sets no
entry, although the claim says every request with both fields present
records the pickup. -/
theorem pickup_empty_batchId_cex :
    (localPickup (some "") (some "driver") none none fun _ => none).1 = 400 ∧
    (localPickup (some "") (some "driver") none none fun _ => none).2 "" = none := by
  constructor
  · rfl
  · rfl

/-- Claim C10 as amended: with batchId and transporter present and
non-empty (JavaScript-truthy), /local-pickup responds 200, overwrites
exactly the advisory entry of that batchId with status "In Transit", and
leaves every other key unchanged; with either field missing it responds
400 and returns the map unchanged. -/
theorem pickup_sets_exactly_batch (b t : String) (loc time : Option String)
    (m : String → Option PickupEntry) (hb : b ≠ "") (ht : t ≠ "") :
    (localPickup (some b) (some t) loc time m).1 = 200 ∧
    (localPickup (some b) (some t) loc time m).2 b
      = some { transporter := t, pickupLocation := loc,
               pickupTime := time, status := "In Transit" } ∧
    (∀ k, k ≠ b → (localPickup (some b) (some t) loc time m).2 k = m k) ∧
    (∀ t2 loc2 time2, localPickup none t2 loc2 time2 m = (400, m)) ∧
    (∀ b2 loc2 time2, localPickup b2 none loc2 time2 m = (400, m)) := by
  have hcond : ¬(b = "" ∨ t = "") := by
    intro hc
    rcases hc with hc | hc
    · exact hb hc
    · exact ht hc
  refine ⟨?_, ?_, ?_, ?_, ?_⟩
  · simp [localPickup, hcond]
  · simp [localPickup, hcond]
  · intro k hk
    simp [localPickup, hcond, hk]
  · intro t2 loc2 time2
    cases t2 <;> rfl
  · intro b2 loc2 time2
    cases b2 <;> rfl

/-- Witness for C10 at batchId "B1", transporter "driver": 200, the entry
for "B1" is written with status "In Transit", and the unrelated key "B2"
is untouched. -/
theorem pickup_sets_exactly_batch_witness :
    (localPickup (some "B1") (some "driver") none none fun _ => none).1 = 200 ∧
    (localPickup (some "B1") (some "driver") none none fun _ => none).2 "B1"
      = some { transporter := "driver", pickupLocation := none,
               pickupTime := none, status := "In Transit" } ∧
    (localPickup (some "B1") (some "driver") none none fun _ => none).2 "B2" = none := by
  have h := pickup_sets_exactly_batch "B1" "driver" none none (fun _ => none)
    (by decide) (by decide)
  exact ⟨h.1, h.2.1, h.2.2.1 "B2" (by decide)⟩

/-- Counterexample to C5: a non-empty reading set in which every reading
lacks a temperature field does not make aggregation succeed with zeroed
statistics — /aggregateAndAnchor answers 404 and builds no summary. -/
theorem anchor_all_missing_temp_cex :
    anchorStatus (aggregateAndAnchor (some "8") (some [⟨none, some 50, none⟩]) 5) = 404 ∧
    summaryOf (aggregateAndAnchor (some "8") (some [⟨none, some 50, none⟩]) 5) = none := by
  constructor
  · rfl
  · rfl

/-- Claim C5 as amended: for every truthy batchId and non-empty reading
set in which every reading lacks a temperature field, the anchor handler
rejects the batch with the 404 NoValidFields error (no zeroed summary,
and no ledger call). -/
theorem anchor_all_missing_temp_404 (bid : String) (rs : List SensorReading) (now : Int)
    (hb : bid ≠ "") (hne : rs ≠ [])
    (hall : ∀ r ∈ rs, r.temperature_C = none) :
    aggregateAndAnchor (some bid) (some rs) now
      = AnchorOutcome.noValidFields
          "No valid temperature/humidity fields found in the records" ∧
    ledgerCallsOf (aggregateAndAnchor (some bid) (some rs) now) = [] := by
  have hc : collectReadings rs = ([], [], 0) :=
    foldl_collectStep_noTemp rs ([], [], 0) hall
  constructor
  · simp [aggregateAndAnchor, hb, hc]
  · simp [aggregateAndAnchor, hb, hc, ledgerCallsOf]

/-- Witness for C5 at one humidity-only reading: the handler returns the
404 NoValidFields outcome. -/
theorem anchor_all_missing_temp_404_witness :
    aggregateAndAnchor (some "8") (some [⟨none, some 50, none⟩]) 3
      = AnchorOutcome.noValidFields
          "No valid temperature/humidity fields found in the records" :=
  (anchor_all_missing_temp_404 "8" [⟨none, some 50, none⟩] 3 (by decide) (by decide)
    (by decide)).1

/-- Counterexample to C6: in the anchor aggregation a reading carrying a
humidity value but no temperature value contributes to neither sequence
(the humidity sequence stays empty), and the batch is rejected with 404
rather than tolerated. -/
theorem anchor_partition_requires_both_cex :
    (collectReadings [⟨none, some 50, none⟩]).2.1 = [] ∧
    anchorStatus (aggregateAndAnchor (some "8") (some [⟨none, some 50, none⟩]) 0) = 404 := by
  constructor
  · rfl
  · rfl

/-- Claim C6 as amended: the consumer-data path partitions the readings
into the two field projections independently (a humidity-only reading
still contributes its humidity), while the anchor parse loop keeps a
reading — in either sequence — only when both fields are present. -/
theorem partition_characterization (rs : List SensorReading) :
    consumerPartition rs
      = (rs.filterMap SensorReading.temperature_C,
         rs.filterMap SensorReading.humidity_pct) ∧
    (collectReadings rs).1 = rs.filterMap bothTemp ∧
    (collectReadings rs).2.1 = rs.filterMap bothHum := by
  exact ⟨foldl_consumerStep rs [] [],
    (foldl_collectStep rs ([], [], 0)).1, (foldl_collectStep rs ([], [], 0)).2⟩

/-- Counterexample to C7: on the single-reading sequence [1/250] the
summary's minimum temperature is 1/250 while the reported average is the
2-decimal rounding "0.00", whose numeric value is strictly below the
minimum — so min ≤ avg fails after the code's rounding. -/
theorem rounded_avg_below_min_cex :
    summaryOf (aggregateAndAnchor (some "8")
        (some [⟨some (mkRat 1 250), some 50, some 4⟩]) 9)
      = some { batchId := "8", avgTemp := "0.00", avgHumidity := "50.00",
               minTemp := mkRat 1 250, maxTemp := mkRat 1 250,
               sampleCount := 1, periodEnd := 4 } ∧
    toFixed2val (mkRat 1 250) < mkRat 1 250 := by
  constructor
  · decide
  · have h0 : round2 (mkRat 1 250) = 0 := by decide
    have hpos : (0 : ℚ) < mkRat 1 250 := by
      rw [Rat.mkRat_eq_divInt, Rat.divInt_eq_div]
      norm_num
    have hneg : ¬(mkRat 1 250 < (0 : ℚ)) := not_lt.mpr (le_of_lt hpos)
    rw [toFixed2val, h0, if_neg hneg]
    simpa using hpos

/-- Claim C7 as amended: on every non-empty temperature sequence the
aggregation's average is the exact rational mean, and the exact
inequalities min ≤ avg ≤ max hold; the code rounds only the average (to
two decimals) so the rounded value can leave this interval, as the
counterexample shows. -/
theorem min_avg_max_ordered (t : ℚ) (ts : List ℚ) :
    jsAvg (t :: ts) = JsNum.num (sumQ (t :: ts) / (((t :: ts).length : ℕ) : ℚ)) ∧
    listMin t ts ≤ sumQ (t :: ts) / (((t :: ts).length : ℕ) : ℚ) ∧
    sumQ (t :: ts) / (((t :: ts).length : ℕ) : ℚ) ≤ listMax t ts := by
  have hn := length_cons_posQ t ts
  refine ⟨jsAvg_cons t ts, ?_, ?_⟩
  · rw [le_div_iff hn]
    apply mul_length_le_sumQ
    intro x hx
    rcases List.mem_cons.mp hx with h | h
    · subst h
      exact listMin_le_seed ts x
    · exact listMin_le_mem ts t x h
  · rw [div_le_iff hn]
    apply sumQ_le_mul_length
    intro x hx
    rcases List.mem_cons.mp hx with h | h
    · subst h
      exact seed_le_listMax ts x
    · exact mem_le_listMax ts t x h

set_option maxRecDepth 100000 in
/-- Counterexample to C1: two runs on identical logical input — same
batchId "8", same single reading (20, 55, no timestamp) — at clock values
1000 and 2000 produce different SHA-256 digests, because with no positive
reading timestamp the serialized aggregate's periodEnd falls back to
`Date.now()`. -/
theorem digest_depends_on_clock_cex :
    hashOf (aggregateAndAnchor (some "8") (some [⟨some 20, some 55, none⟩]) 1000)
      ≠ hashOf (aggregateAndAnchor (some "8") (some [⟨some 20, some 55, none⟩]) 2000) ∧
    (hashOf (aggregateAndAnchor (some "8") (some [⟨some 20, some 55, none⟩]) 1000)).isSome
      = true := by
  constructor
  · decide
  · decide

/-- Claim C1 as amended: whenever some kept reading carries a positive
local_timestamp_ms (so the parsed lastTimestamp is nonzero), the digest —
and in fact the whole outcome — of /aggregateAndAnchor is independent of
the clock: two invocations on the same batchId and the same readings in
the same order produce the same digest. -/
theorem digest_deterministic (bid : String) (rs : List SensorReading) (n1 n2 : Int)
    (h : (collectReadings rs).2.2 ≠ 0) :
    hashOf (aggregateAndAnchor (some bid) (some rs) n1)
      = hashOf (aggregateAndAnchor (some bid) (some rs) n2) := by
  by_cases hb : bid = ""
  · simp [aggregateAndAnchor, hb]
  · rcases hc : (collectReadings rs).1 with _ | ⟨t, ts⟩ <;>
      simp [aggregateAndAnchor, hb, hc, h]

/-- Witness for C1 at a reading with timestamp 5: the digests at clock
values 1 and 2 agree. -/
theorem digest_deterministic_witness :
    hashOf (aggregateAndAnchor (some "8") (some [⟨some 20, some 55, some 5⟩]) 1)
      = hashOf (aggregateAndAnchor (some "8") (some [⟨some 20, some 55, some 5⟩]) 2) :=
  digest_deterministic "8" [⟨some 20, some 55, some 5⟩] 1 2 (by decide)

/-- Instance of the C6 theorem at a one-record list with only humidity:
the consumer partition keeps the humidity, the anchor partition drops it. -/
theorem partition_characterization_witness :
    consumerPartition [⟨none, some 50, none⟩]
      = ([⟨none, some 50, none⟩].filterMap SensorReading.temperature_C,
         [⟨none, some 50, none⟩].filterMap SensorReading.humidity_pct) :=
  (partition_characterization [⟨none, some 50, none⟩]).1

/-- Instance of the C7 theorem at the sequence [1, 2]: the exact mean is
between the minimum and the maximum. -/
theorem min_avg_max_ordered_witness :
    listMin 1 [2] ≤ sumQ [(1 : ℚ), 2] / ((([(1 : ℚ), 2]).length : ℕ) : ℚ) ∧
    sumQ [(1 : ℚ), 2] / ((([(1 : ℚ), 2]).length : ℕ) : ℚ) ≤ listMax 1 [2] :=
  ⟨(min_avg_max_ordered 1 [2]).2.1, (min_avg_max_ordered 1 [2]).2.2⟩
